import Mathlib

/-!
Shallow embedding of the inventory service (NestJS/TypeScript) for
verification of its specification.

Source layout mirrored here:
* `src/inventory/inventory.service.ts` — the Stock Consistency
  Orchestrator: `checkStock`, `deductStock`, `updateStock`,
  `publishStockUpdateEvent`.
* `src/inventory/inventory.repository.ts` — the Ledger operations
  (`findOne` / `findOneAndUpdate` on the mongoose model), embedded as
  first-match operations on a `List Item`.
* `src/rabbitmq/rabbitmq.service.ts` — the Connection Manager
  (`connectWithRetry`), Event Publisher (`publish`) and the two RPC
  responders set up in `setupSubscriptions`.

Modelling conventions:
* JS numbers holding quantities/prices are embedded as `Int`.
* The mongoose collection is a `List Item`; `findOne({productCode})`
  is first-match lookup, `findOneAndUpdate`/`document.save()` update
  the first matching record in place.
* Mutating orchestrator operations return an `OpResult`: the ledger
  after the call, the list of domain events handed to the Event
  Publisher (in order), and the error thrown, if any.  A TypeScript
  `throw` aborts the function before any later write, so the error
  branches return the unchanged ledger and an empty event list exactly
  when the source throws before `save()` / `publish`.
* Wall-clock timestamps (`new Date()`) are outside the embedding; the
  `timestamp` field of events is omitted.  Broker I/O outcomes are
  abstracted by explicit environment records (`TransportEnv`,
  connection-attempt oracles) in the transport section below.
-/

namespace Inventory

/-- A stock item record (schema `Inventory`, see `IInventory` in
`inventory.interface.ts`): product code, name, description, quantity,
price. -/
structure Item where
  productCode : String
  name : String
  description : String
  quantity : Int
  price : Int
  deriving DecidableEq, Repr

/-- `InventoryEventType` from `events/inventory.events.ts`. -/
inductive InventoryEventType where
  | STOCK_ADDED
  | STOCK_REDUCED
  | STOCK_UPDATED
  deriving DecidableEq, Repr

/-- The string value of each enum member
(`STOCK_ADDED = 'STOCK_ADDED'`, …). -/
def InventoryEventType.value : InventoryEventType → String
  | .STOCK_ADDED => "STOCK_ADDED"
  | .STOCK_REDUCED => "STOCK_REDUCED"
  | .STOCK_UPDATED => "STOCK_UPDATED"

/-- `StockUpdateEvent` from `events/inventory.events.ts` (the `timestamp`
field is outside the embedding, see the header comment). -/
structure StockUpdateEvent where
  eventType : InventoryEventType
  productCode : String
  previousQuantity : Int
  newQuantity : Int
  productName : Option String
  deriving DecidableEq, Repr

/-- Typed errors thrown by the orchestrator:
`NotFoundException('Item not found')` from `getItem`, and the
insufficient-stock `Error` of `deductStock`, whose message carries the
item name, the requested quantity and the available quantity. -/
inductive ServiceError where
  | notFound
  | insufficientStock (name : String) (requested : Int) (available : Int)
  deriving DecidableEq, Repr

/-- The `error.message` string of a thrown `ServiceError`, exactly as the
source builds it. -/
def ServiceError.messageOf : ServiceError → String
  | .notFound => "Item not found"
  | .insufficientStock name requested available =>
      "Insufficient stock for " ++ name ++ ". Requested: " ++
        toString requested ++ ", Available: " ++ toString available

/-- `inventoryRepository.findItemById` = `inventoryModel.findOne({productCode})`:
the first record whose `productCode` matches, if any. -/
def findItemById : List Item → String → Option Item
  | [], _ => none
  | it :: rest, code =>
      if it.productCode = code then some it else findItemById rest code

/-- Setting the quantity of the first record matching `code`
(`findOneAndUpdate({productCode}, {quantity})` in
`inventoryRepository.updateStock`, and `document.save()` after the
in-place `inventory.quantity -= quantity` of `deductStock`). -/
def setQuantityFirst : List Item → String → Int → List Item
  | [], _, _ => []
  | it :: rest, code, q =>
      if it.productCode = code then { it with quantity := q } :: rest
      else it :: setQuantityFirst rest code q

/-- Result of a mutating orchestrator operation: ledger after the call,
events handed to the Event Publisher (in order), and the thrown error,
if any. -/
structure OpResult where
  ledger : List Item
  events : List StockUpdateEvent
  error : Option ServiceError
  deriving DecidableEq, Repr

/-- Result record of `InventoryService.checkStock`. -/
structure StockCheckResult where
  available : Bool
  message : String
  currentStock : Int
  deriving DecidableEq, Repr

/-- `InventoryService.checkStock(productCode, quantity)`: pure read of the
ledger.  Missing item ⇒ `available=false, currentStock=0`; otherwise
`available = (inventory.quantity >= quantity)` with the corresponding
message. -/
def checkStock (ledger : List Item) (productCode : String) (quantity : Int) :
    StockCheckResult :=
  match findItemById ledger productCode with
  | none =>
      { available := false
        message := "Item not found in inventory"
        currentStock := 0 }
  | some inventory =>
      let available : Bool := inventory.quantity ≥ quantity
      { available
        message :=
          if available then "Stock available"
          else
            "Insufficient stock. Requested: " ++ toString quantity ++
              ", Available: " ++ toString inventory.quantity
        currentStock := inventory.quantity }

/-- `InventoryService.deductStock(productCode, quantity)`:
`getItem` (throws NotFound when absent); throws the insufficient-stock
error when `inventory.quantity < quantity`; otherwise decrements the
quantity in place, saves, and publishes one STOCK_REDUCED event with
`previousQuantity = inventory.quantity + quantity` computed after the
decrement. -/
def deductStock (ledger : List Item) (productCode : String) (quantity : Int) :
    OpResult :=
  match findItemById ledger productCode with
  | none => { ledger, events := [], error := some .notFound }
  | some inventory =>
      if inventory.quantity < quantity then
        { ledger
          events := []
          error := some (.insufficientStock inventory.name quantity
            inventory.quantity) }
      else
        let newQuantity := inventory.quantity - quantity
        { ledger := setQuantityFirst ledger productCode newQuantity
          events := [{ eventType := .STOCK_REDUCED
                       productCode
                       previousQuantity := newQuantity + quantity
                       newQuantity
                       productName := some inventory.name }]
          error := none }

/-- `InventoryService.updateStock(productCode, quantity)`: throws NotFound
when absent; otherwise sets the stored quantity via the repository and
publishes one event whose type is STOCK_ADDED when
`quantity > previousQuantity` and STOCK_REDUCED otherwise. -/
def updateStock (ledger : List Item) (productCode : String) (quantity : Int) :
    OpResult :=
  match findItemById ledger productCode with
  | none => { ledger, events := [], error := some .notFound }
  | some item =>
      let previousQuantity := item.quantity
      { ledger := setQuantityFirst ledger productCode quantity
        events := [{ eventType :=
                       if quantity > previousQuantity then .STOCK_ADDED
                       else .STOCK_REDUCED
                     productCode
                     previousQuantity
                     newQuantity := quantity
                     productName := some item.name }]
        error := none }

/-- After setting the quantity of the matched record, looking the code up
again returns that record with the new quantity. -/
theorem findItemById_setQuantityFirst (ledger : List Item) (code : String)
    (v : Int) (item : Item) (h : findItemById ledger code = some item) :
    findItemById (setQuantityFirst ledger code v) code =
      some { item with quantity := v } := by
  induction ledger with
  | nil => simp [findItemById] at h
  | cons it rest ih =>
      by_cases hc : it.productCode = code
      · simp [findItemById, hc] at h
        subst h
        simp [setQuantityFirst, findItemById, hc]
      · simp [findItemById, hc] at h
        simp [setQuantityFirst, findItemById, hc, ih h]

/-- A small concrete ledger used by the witnesses. -/
def demoLedger : List Item :=
  [{ productCode := "INV-001", name := "Apple", description := "fruit",
     quantity := 10, price := 5 },
   { productCode := "INV-002", name := "Bolt", description := "hardware",
     quantity := 3, price := 1 }]

/-- C1: `deductStock` on an item with stored quantity `S ≥ q` stores
`S - q`, throws nothing, and emits exactly one STOCK_REDUCED event with
`previousQuantity = S` and `newQuantity = S - q`. -/
theorem deductStock_sufficient (ledger : List Item) (code : String)
    (q : Int) (item : Item) (hfind : findItemById ledger code = some item)
    (hq : q ≤ item.quantity) :
    (deductStock ledger code q).error = none ∧
    findItemById (deductStock ledger code q).ledger code =
      some { item with quantity := item.quantity - q } ∧
    (deductStock ledger code q).events =
      [{ eventType := .STOCK_REDUCED
         productCode := code
         previousQuantity := item.quantity
         newQuantity := item.quantity - q
         productName := some item.name }] := by
  have hlt : ¬ item.quantity < q := not_lt.mpr hq
  refine ⟨?_, ?_, ?_⟩
  · simp [deductStock, hfind, hlt]
  · simp only [deductStock, hfind, hlt, if_neg]
    exact findItemById_setQuantityFirst ledger code (item.quantity - q) item
      hfind
  · simp [deductStock, hfind, hlt]

/-- Witness for C1 on a concrete ledger: deducting 4 from item INV-001
(quantity 10) stores 6 and emits the matching STOCK_REDUCED event. -/
theorem deductStock_sufficient_witness :
    (deductStock demoLedger "INV-001" 4).error = none ∧
    findItemById (deductStock demoLedger "INV-001" 4).ledger "INV-001" =
      some { productCode := "INV-001", name := "Apple",
             description := "fruit", quantity := 6, price := 5 } ∧
    (deductStock demoLedger "INV-001" 4).events =
      [{ eventType := .STOCK_REDUCED
         productCode := "INV-001"
         previousQuantity := 10
         newQuantity := 6
         productName := some "Apple" }] :=
  deductStock_sufficient demoLedger "INV-001" 4
    { productCode := "INV-001", name := "Apple", description := "fruit",
      quantity := 10, price := 5 } (by decide) (by decide)

/-- C2: `deductStock` with `q` exceeding the stored quantity throws the
insufficient-stock error carrying the item name, the requested quantity
and the available quantity, leaves the ledger unchanged and emits no
event. -/
theorem deductStock_insufficient (ledger : List Item) (code : String)
    (q : Int) (item : Item) (hfind : findItemById ledger code = some item)
    (hq : item.quantity < q) :
    deductStock ledger code q =
      { ledger
        events := []
        error := some (.insufficientStock item.name q item.quantity) } := by
  simp [deductStock, hfind, hq]

/-- Witness for C2: requesting 11 of item INV-001 (quantity 10) throws
the insufficient-stock error and performs no mutation. -/
theorem deductStock_insufficient_witness :
    deductStock demoLedger "INV-001" 11 =
      { ledger := demoLedger
        events := []
        error := some (.insufficientStock "Apple" 11 10) } :=
  deductStock_insufficient demoLedger "INV-001" 11
    { productCode := "INV-001", name := "Apple", description := "fruit",
      quantity := 10, price := 5 } (by decide) (by decide)

/-- C3: `checkStock` is a pure read (a total function of the ledger that
returns no updated ledger and throws nothing): on a missing code it
returns `available=false, currentStock=0` with the not-found message;
on a present item with stored quantity `S` it returns
`available = (S ≥ q)`, `currentStock = S`, and the corresponding
message. -/
theorem checkStock_spec (ledger : List Item) (code : String) (q : Int) :
    (findItemById ledger code = none →
      checkStock ledger code q =
        { available := false
          message := "Item not found in inventory"
          currentStock := 0 }) ∧
    (∀ item : Item, findItemById ledger code = some item →
      ((checkStock ledger code q).available = true ↔ q ≤ item.quantity) ∧
      (checkStock ledger code q).currentStock = item.quantity ∧
      (q ≤ item.quantity →
        (checkStock ledger code q).message = "Stock available") ∧
      (item.quantity < q →
        (checkStock ledger code q).message =
          "Insufficient stock. Requested: " ++ toString q ++
            ", Available: " ++ toString item.quantity)) := by
  constructor
  · intro hnone
    simp [checkStock, hnone]
  · intro item hfind
    refine ⟨?_, ?_, ?_, ?_⟩
    · simp [checkStock, hfind]
    · simp [checkStock, hfind]
    · intro hq
      simp [checkStock, hfind, le_of_lt, hq]
    · intro hq
      have : ¬ item.quantity ≥ q := not_le.mpr hq
      simp [checkStock, hfind, this]

/-- Witness for C3, both branches on the concrete ledger: a missing
code, a sufficient check and an insufficient check. -/
theorem checkStock_spec_witness :
    checkStock demoLedger "NOPE" 1 =
      { available := false
        message := "Item not found in inventory"
        currentStock := 0 } ∧
    (checkStock demoLedger "INV-002" 2).available = true ∧
    (checkStock demoLedger "INV-002" 7).currentStock = 3 ∧
    (checkStock demoLedger "INV-002" 7).message =
      "Insufficient stock. Requested: 7, Available: 3" := by
  have habs := (checkStock_spec demoLedger "NOPE" 1).1 (by decide)
  have h2 := (checkStock_spec demoLedger "INV-002" 2).2
    { productCode := "INV-002", name := "Bolt", description := "hardware",
      quantity := 3, price := 1 } (by decide)
  have h7 := (checkStock_spec demoLedger "INV-002" 7).2
    { productCode := "INV-002", name := "Bolt", description := "hardware",
      quantity := 3, price := 1 } (by decide)
  exact ⟨habs, h2.1.mpr (by decide), h7.2.1,
    (h7.2.2.2 (by decide)).trans (by decide)⟩

/-- C5: `updateStock` on a present item with prior quantity `P` stores
`newQty`, throws nothing, and emits exactly one event whose type is
STOCK_ADDED when `newQty > P` and STOCK_REDUCED otherwise — in
particular STOCK_REDUCED when `newQty = P`. -/
theorem updateStock_spec (ledger : List Item) (code : String)
    (newQty : Int) (item : Item)
    (hfind : findItemById ledger code = some item) :
    (updateStock ledger code newQty).error = none ∧
    findItemById (updateStock ledger code newQty).ledger code =
      some { item with quantity := newQty } ∧
    (updateStock ledger code newQty).events =
      [{ eventType :=
           if newQty > item.quantity then .STOCK_ADDED else .STOCK_REDUCED
         productCode := code
         previousQuantity := item.quantity
         newQuantity := newQty
         productName := some item.name }] ∧
    (newQty = item.quantity →
      (updateStock ledger code newQty).events.map
          (fun ev => ev.eventType) = [.STOCK_REDUCED]) := by
  refine ⟨?_, ?_, ?_, ?_⟩
  · simp [updateStock, hfind]
  · simp only [updateStock, hfind]
    exact findItemById_setQuantityFirst ledger code newQty item hfind
  · simp [updateStock, hfind]
  · intro heq
    simp [updateStock, hfind, heq]

/-- Witness for C5: updating INV-001 from 10 to 10 emits STOCK_REDUCED
(the equal-quantity edge case), and the quantity is stored. -/
theorem updateStock_spec_witness :
    (updateStock demoLedger "INV-001" 10).error = none ∧
    findItemById (updateStock demoLedger "INV-001" 10).ledger "INV-001" =
      some { productCode := "INV-001", name := "Apple",
             description := "fruit", quantity := 10, price := 5 } ∧
    (updateStock demoLedger "INV-001" 10).events.map
        (fun ev => ev.eventType) = [.STOCK_REDUCED] := by
  have h := updateStock_spec demoLedger "INV-001" 10
    { productCode := "INV-001", name := "Apple", description := "fruit",
      quantity := 10, price := 5 } (by decide)
  exact ⟨h.1, h.2.1, h.2.2.2 (by decide)⟩

/-! ### Event routing (`publishStockUpdateEvent`)

`publishStockUpdateEvent` publishes every event to
`RabbitMQExchanges.INVENTORY` (= `'inventory.exchange'`, see
`rabbitmq.types.ts`) under the routing key
`` `inventory.stock.${event.eventType.toLowerCase()}` ``. -/

/-- `RabbitMQExchanges.INVENTORY` from `rabbitmq.types.ts`. -/
def inventoryExchange : String := "inventory.exchange"

/-- JavaScript `String.prototype.toLowerCase()`, character by character
(the enum values are plain ASCII). -/
def jsToLowerCase (s : String) : String :=
  ⟨s.data.map Char.toLower⟩

/-- The `(exchange, routingKey)` pair `publishStockUpdateEvent` passes to
`rabbitMQService.publish` for a given event. -/
def publishCallFor (ev : StockUpdateEvent) : String × String :=
  (inventoryExchange,
    "inventory.stock." ++ jsToLowerCase ev.eventType.value)

/-- A concrete STOCK_REDUCED event, as `deductStock` emits. -/
def reducedDemoEvent : StockUpdateEvent where
  eventType := .STOCK_REDUCED
  productCode := "P"
  previousQuantity := 1
  newQuantity := 0
  productName := none

/-- Counterexample to C7: a STOCK_REDUCED event is published under
routing key `inventory.stock.stock_reduced` — `toLowerCase` applies to
the whole enum value `STOCK_REDUCED` — which is none of the keys
`inventory.stock.added` / `.reduced` / `.updated` the claim names. -/
theorem publishCallFor_counterexample :
    (publishCallFor reducedDemoEvent).2 = "inventory.stock.stock_reduced" ∧
    (publishCallFor reducedDemoEvent).2 ∉
      ["inventory.stock.added", "inventory.stock.reduced",
       "inventory.stock.updated"] := by
  decide

/-- C7 amended: every event is published to the inventory exchange under
`inventory.stock.<e>` where `<e>` is the lower-cased full enum value,
i.e. one of `stock_added`, `stock_reduced`, `stock_updated`. -/
theorem publishCallFor_routing (ev : StockUpdateEvent) :
    (publishCallFor ev).1 = "inventory.exchange" ∧
    (publishCallFor ev).2 =
      "inventory.stock." ++ jsToLowerCase ev.eventType.value ∧
    (publishCallFor ev).2 ∈
      ["inventory.stock.stock_added", "inventory.stock.stock_reduced",
       "inventory.stock.stock_updated"] := by
  obtain ⟨et, pc, pq, nq, pn⟩ := ev
  refine ⟨rfl, rfl, ?_⟩
  cases et <;> simp only [publishCallFor] <;> decide

/-! ### Frame property of the mutating operations (C10) -/

/-- Frame relation for an update keyed on `code`: the record keeps its
`productCode`, `name`, `description` and `price`, and a record whose
code is not `code` is entirely unchanged. -/
def frameOnly (code : String) (old new : Item) : Prop :=
  new.productCode = old.productCode ∧ new.name = old.name ∧
  new.description = old.description ∧ new.price = old.price ∧
  (old.productCode ≠ code → new = old)

/-- `setQuantityFirst` relates pointwise to the original ledger by the
frame relation. -/
theorem setQuantityFirst_frame (ledger : List Item) (code : String)
    (v : Int) :
    List.Forall₂ (frameOnly code) ledger (setQuantityFirst ledger code v) := by
  induction ledger with
  | nil => simp [setQuantityFirst]
  | cons it rest ih =>
      by_cases hc : it.productCode = code
      · simp only [setQuantityFirst]
        rw [if_pos hc]
        exact List.Forall₂.cons
          ⟨rfl, rfl, rfl, rfl, fun hne => absurd hc hne⟩
          (List.forall₂_same.mpr
            (fun x _ => ⟨rfl, rfl, rfl, rfl, fun _ => rfl⟩))
      · simp only [setQuantityFirst]
        rw [if_neg hc]
        exact List.Forall₂.cons ⟨rfl, rfl, rfl, rfl, fun _ => rfl⟩ ih

/-- C10: a successful `updateStock` or `deductStock` keyed on `code`
changes at most the `quantity` field of records whose `productCode` is
`code`: every record keeps its code, name, description and price, every
record with a different code is unchanged, and the ledger keeps its
length and order. -/
theorem mutation_frame (ledger : List Item) (code : String) (q : Int) :
    ((updateStock ledger code q).error = none →
      List.Forall₂ (frameOnly code) ledger
        (updateStock ledger code q).ledger) ∧
    ((deductStock ledger code q).error = none →
      List.Forall₂ (frameOnly code) ledger
        (deductStock ledger code q).ledger) := by
  constructor
  · intro herr
    cases hfind : findItemById ledger code with
    | none => simp [updateStock, hfind] at herr
    | some item =>
        simp only [updateStock, hfind]
        exact setQuantityFirst_frame ledger code q
  · intro herr
    cases hfind : findItemById ledger code with
    | none => simp [deductStock, hfind] at herr
    | some item =>
        by_cases hlt : item.quantity < q
        · simp [deductStock, hfind, hlt] at herr
        · simp only [deductStock, hfind, hlt, if_neg, not_false_iff]
          exact setQuantityFirst_frame ledger code (item.quantity - q)

/-- Witness for C10 at a concrete ledger: a successful update of INV-001
and a successful deduction from INV-001 both satisfy the frame
relation against the original ledger. -/
theorem mutation_frame_witness :
    List.Forall₂ (frameOnly "INV-001") demoLedger
      (updateStock demoLedger "INV-001" 7).ledger ∧
    List.Forall₂ (frameOnly "INV-001") demoLedger
      (deductStock demoLedger "INV-001" 2).ledger :=
  ⟨(mutation_frame demoLedger "INV-001" 7).1 (by decide),
   (mutation_frame demoLedger "INV-001" 2).2 (by decide)⟩

/-! ### RPC responders (`setupSubscriptions` in `rabbitmq.service.ts`)

The stock-check responder maps `checkStock` over the batch and
aggregates; the stock-deduct responder first checks every item and only
then deducts.  Per-item fan-out (`Promise.all`) is embedded
sequentially in request order; the reply transport (replyTo /
correlationId) is outside these claims. -/

/-- `StockCheckItem` from `rabbitmq.service.ts`. -/
structure StockCheckItem where
  productCode : String
  quantity : Int
  deriving DecidableEq, Repr

/-- One entry of the stock-check responder's result array:
`{ productCode: item.productCode, ...result }`. -/
structure PerItemCheck where
  productCode : String
  available : Bool
  message : String
  currentStock : Int
  deriving DecidableEq, Repr

/-- The per-item pass of the stock-check responder:
`items.map(item => ({productCode, ...checkStock(item)}))`. -/
def checkItems (ledger : List Item) (items : List StockCheckItem) :
    List PerItemCheck :=
  items.map (fun it =>
    let result := checkStock ledger it.productCode it.quantity
    { productCode := it.productCode
      available := result.available
      message := result.message
      currentStock := result.currentStock })

/-- JS object assignment `acc[code] = v` on an object used as a map:
replace the binding when the key is present, append it otherwise. -/
def insertStock : List (String × Int) → String → Int → List (String × Int)
  | [], code, v => [(code, v)]
  | (k, w) :: rest, code, v =>
      if k = code then (k, v) :: rest
      else (k, w) :: insertStock rest code v

/-- Reading `acc[code]` back from the object. -/
def lookupStock : List (String × Int) → String → Option Int
  | [], _ => none
  | (k, w) :: rest, code =>
      if k = code then some w else lookupStock rest code

/-- The stock-check responder's reply shape. -/
structure StockCheckResponse where
  success : Bool
  message : String
  availableStock : List (String × Int)
  details : List PerItemCheck
  deriving DecidableEq, Repr

/-- The stock-check responder body: aggregate `success` as
`results.every(available)`, the message as either `'All items in
stock'` or the joined messages of the unavailable items, the
`availableStock` object by `reduce`, and `details` as the raw result
array. -/
def handleStockCheck (ledger : List Item) (items : List StockCheckItem) :
    StockCheckResponse :=
  let stockCheckResults := checkItems ledger items
  { success := stockCheckResults.all (fun r => r.available)
    message :=
      if stockCheckResults.all (fun r => r.available) then
        "All items in stock"
      else
        String.intercalate "; "
          ((stockCheckResults.filter (fun r => !r.available)).map
            (fun r => r.message))
    availableStock :=
      stockCheckResults.foldl
        (fun acc r => insertStock acc r.productCode r.currentStock) []
    details := stockCheckResults }

/-- The stock-deduct responder's reply shape (`deductions` is absent on
failure; embedded as the empty list). -/
structure StockDeductResponse where
  success : Bool
  message : String
  deductions : List (String × Int)
  deriving DecidableEq, Repr

/-- The deduction pass of the stock-deduct responder
(`Promise.all(items.map(deductStock))`), embedded sequentially in
request order: apply each deduction in turn, stopping at the first
thrown error (a thrown `deductStock` leaves its own ledger untouched,
deductions already applied stay applied). -/
def deductItems : List Item → List StockCheckItem →
    List Item × Option ServiceError
  | ledger, [] => (ledger, none)
  | ledger, it :: rest =>
      let r := deductStock ledger it.productCode it.quantity
      match r.error with
      | none => deductItems r.ledger rest
      | some e => (r.ledger, some e)

/-- The stock-deduct responder body: run `checkStock` over the whole
batch first; if any item is unavailable, throw — caught by the handler's
`catch`, which replies `success=false` with the error message and
performs no deduction.  Otherwise deduct every item and reply with the
requested deductions. -/
def handleStockDeduct (ledger : List Item) (items : List StockCheckItem) :
    List Item × StockDeductResponse :=
  let stockChecks :=
    items.map (fun it => (it, checkStock ledger it.productCode it.quantity))
  if stockChecks.all (fun p => p.2.available) then
    match deductItems ledger items with
    | (ledger2, none) =>
        (ledger2,
         { success := true
           message := "Stock deducted successfully"
           deductions := items.map (fun it => (it.productCode, it.quantity)) })
    | (ledger2, some e) =>
        (ledger2,
         { success := false, message := e.messageOf, deductions := [] })
  else
    (ledger,
     { success := false
       message := "Some items are not available in requested quantity"
       deductions := [] })

/-- C4: when any item of the batch fails the upfront availability check,
the stock-deduct responder leaves the ledger exactly as it was and
replies `success=false` with the error message. -/
theorem handleStockDeduct_allOrNothing (ledger : List Item)
    (items : List StockCheckItem) (it : StockCheckItem) (hmem : it ∈ items)
    (hunavail : (checkStock ledger it.productCode it.quantity).available =
      false) :
    (handleStockDeduct ledger items).1 = ledger ∧
    (handleStockDeduct ledger items).2.success = false ∧
    (handleStockDeduct ledger items).2.message =
      "Some items are not available in requested quantity" := by
  have hall :
      (items.map
        (fun x => (x, checkStock ledger x.productCode x.quantity))).all
        (fun p => p.2.available) = false := by
    apply Bool.eq_false_iff.mpr
    intro htrue
    have hit := List.all_eq_true.mp htrue
      (it, checkStock ledger it.productCode it.quantity)
      (List.mem_map_of_mem _ hmem)
    simp [hunavail] at hit
  simp [handleStockDeduct, hall]

/-- Ledger and batch of the spec's worked example: items A and B with 10
in stock each. -/
def exLedger : List Item :=
  [{ productCode := "PROD-A", name := "Alpha", description := "a",
     quantity := 10, price := 2 },
   { productCode := "PROD-B", name := "Beta", description := "b",
     quantity := 10, price := 3 }]

/-- The example batch `[{A,5},{B,20}]`. -/
def exItems : List StockCheckItem :=
  [{ productCode := "PROD-A", quantity := 5 },
   { productCode := "PROD-B", quantity := 20 }]

/-- Witness for C4: in the example batch, B is unavailable, so the
responder mutates nothing and replies with the failure message. -/
theorem handleStockDeduct_allOrNothing_witness :
    (handleStockDeduct exLedger exItems).1 = exLedger ∧
    (handleStockDeduct exLedger exItems).2.success = false ∧
    (handleStockDeduct exLedger exItems).2.message =
      "Some items are not available in requested quantity" :=
  handleStockDeduct_allOrNothing exLedger exItems
    { productCode := "PROD-B", quantity := 20 } (by decide) (by decide)

/-- The stored quantity visible for a code: `0` for a missing item. -/
def currentStockOf (ledger : List Item) (code : String) : Int :=
  match findItemById ledger code with
  | none => 0
  | some item => item.quantity

/-- `checkStock`'s `currentStock` field does not depend on the requested
quantity. -/
theorem checkStock_currentStock (ledger : List Item) (code : String)
    (q : Int) :
    (checkStock ledger code q).currentStock = currentStockOf ledger code := by
  cases h : findItemById ledger code <;> simp [checkStock, currentStockOf, h]

/-- Looking up the key just assigned returns the assigned value. -/
theorem lookupStock_insertStock_self (acc : List (String × Int))
    (code : String) (v : Int) :
    lookupStock (insertStock acc code v) code = some v := by
  induction acc with
  | nil => simp [insertStock, lookupStock]
  | cons kv rest ih =>
      obtain ⟨k, w⟩ := kv
      by_cases hk : k = code
      · simp [insertStock, lookupStock, hk]
      · simp [insertStock, lookupStock, hk, ih]

/-- Assigning one key leaves the value of any other key unchanged. -/
theorem lookupStock_insertStock_other (acc : List (String × Int))
    (code k : String) (v : Int) (hk : code ≠ k) :
    lookupStock (insertStock acc code v) k = lookupStock acc k := by
  induction acc with
  | nil => simp [insertStock, lookupStock, hk]
  | cons kv rest ih =>
      obtain ⟨k0, w0⟩ := kv
      by_cases hk0 : k0 = code
      · subst hk0
        simp [insertStock, lookupStock, hk]
      · simp [insertStock, lookupStock, hk0, ih]

/-- Folding the `reduce` step over results whose `currentStock` is
consistent for `code` ends with `code` bound to that consistent value,
provided some result mentions `code` or the accumulator already binds
it. -/
theorem lookupStock_foldl_insert (code : String) (v : Int) :
    ∀ (rs : List PerItemCheck) (acc : List (String × Int)),
      (∀ r ∈ rs, r.productCode = code → r.currentStock = v) →
      ((∃ r ∈ rs, r.productCode = code) ∨ lookupStock acc code = some v) →
      lookupStock
        (rs.foldl (fun a r => insertStock a r.productCode r.currentStock) acc)
        code = some v := by
  intro rs
  induction rs with
  | nil =>
      intro acc _ hdisj
      rcases hdisj with ⟨r, hr, _⟩ | hacc
      · exact absurd hr (List.not_mem_nil r)
      · simpa using hacc
  | cons r rest ih =>
      intro acc hcons hdisj
      simp only [List.foldl_cons]
      by_cases hr : r.productCode = code
      · refine ih (insertStock acc r.productCode r.currentStock)
          (fun x hx hcode => hcons x (List.mem_cons_of_mem r hx) hcode)
          (Or.inr ?_)
        rw [hr, lookupStock_insertStock_self]
        exact congrArg some (hcons r (List.mem_cons_self r rest) hr)
      · refine ih (insertStock acc r.productCode r.currentStock)
          (fun x hx hcode => hcons x (List.mem_cons_of_mem r hx) hcode) ?_
        rcases hdisj with ⟨x, hx, hxcode⟩ | hacc
        · rcases List.mem_cons.mp hx with hxr | hxrest
          · exact absurd (hxr ▸ hxcode) hr
          · exact Or.inl ⟨x, hxrest, hxcode⟩
        · refine Or.inr ?_
          rw [lookupStock_insertStock_other acc r.productCode code
            r.currentStock hr]
          exact hacc

/-- C9: the stock-check responder's reply aggregates exactly as the
per-item `checkStock` results dictate: `success` is the conjunction of
the per-item availabilities, `details` holds one entry per requested
item in request order carrying that item's `checkStock` result,
`availableStock` binds every requested code to its current stock, and
the message is `"All items in stock"` on success and the joined
messages of exactly the unavailable items otherwise. -/
theorem handleStockCheck_spec (ledger : List Item)
    (items : List StockCheckItem) :
    (handleStockCheck ledger items).success =
      items.all (fun it => (checkStock ledger it.productCode
        it.quantity).available) ∧
    List.Forall₂
      (fun (it : StockCheckItem) (d : PerItemCheck) =>
        d.productCode = it.productCode ∧
        d.available =
          (checkStock ledger it.productCode it.quantity).available ∧
        d.message = (checkStock ledger it.productCode it.quantity).message ∧
        d.currentStock =
          (checkStock ledger it.productCode it.quantity).currentStock)
      items (handleStockCheck ledger items).details ∧
    (∀ it ∈ items,
      lookupStock (handleStockCheck ledger items).availableStock
        it.productCode =
        some (checkStock ledger it.productCode it.quantity).currentStock) ∧
    ((handleStockCheck ledger items).success = true →
      (handleStockCheck ledger items).message = "All items in stock") ∧
    ((handleStockCheck ledger items).success = false →
      (handleStockCheck ledger items).message =
        String.intercalate "; "
          (((checkItems ledger items).filter (fun r => !r.available)).map
            (fun r => r.message))) := by
  refine ⟨?_, ?_, ?_, ?_, ?_⟩
  · simp only [handleStockCheck, checkItems]
    rw [Bool.eq_iff_iff]
    simp only [List.all_eq_true]
    constructor
    · intro h it hmem
      exact h _ (List.mem_map_of_mem _ hmem)
    · intro h d hd
      rcases List.mem_map.mp hd with ⟨it, hmem, rfl⟩
      exact h it hmem
  · simp only [handleStockCheck, checkItems]
    induction items with
    | nil => simp
    | cons it rest ih =>
        exact List.Forall₂.cons ⟨rfl, rfl, rfl, rfl⟩ ih
  · intro it hmem
    simp only [handleStockCheck]
    apply lookupStock_foldl_insert it.productCode
      ((checkStock ledger it.productCode it.quantity).currentStock)
      (checkItems ledger items) []
    · intro r hr hcode
      rcases List.mem_map.mp hr with ⟨x, hx, rfl⟩
      show (checkStock ledger x.productCode x.quantity).currentStock =
        (checkStock ledger it.productCode it.quantity).currentStock
      have hxit : x.productCode = it.productCode := hcode
      rw [checkStock_currentStock, checkStock_currentStock, hxit]
    · refine Or.inl ⟨_, List.mem_map_of_mem _ hmem, ?_⟩
      rfl
  · intro hsucc
    simp only [handleStockCheck] at hsucc ⊢
    rw [if_pos hsucc]
  · intro hsucc
    simp only [handleStockCheck] at hsucc ⊢
    rw [if_neg (by simp [hsucc])]

/-- Witness for C9 at the spec's worked example (`[{A,5},{B,20}]`, both
items stocked at 10): overall failure, per-item details `true` then
`false`, both stocks reported, and the aggregate message is exactly B's
insufficiency text. -/
theorem handleStockCheck_spec_witness :
    (handleStockCheck exLedger exItems).success = false ∧
    (handleStockCheck exLedger exItems).details.map (fun d => d.available) =
      [true, false] ∧
    lookupStock (handleStockCheck exLedger exItems).availableStock
      "PROD-A" = some 10 ∧
    lookupStock (handleStockCheck exLedger exItems).availableStock
      "PROD-B" = some 10 ∧
    (handleStockCheck exLedger exItems).message =
      "Insufficient stock. Requested: 20, Available: 10" := by
  have h := handleStockCheck_spec exLedger exItems
  refine ⟨?_, by decide, ?_, ?_, ?_⟩
  · exact h.1.trans (by decide)
  · exact (h.2.2.1 { productCode := "PROD-A", quantity := 5 }
      (by decide)).trans (by decide)
  · exact (h.2.2.1 { productCode := "PROD-B", quantity := 20 }
      (by decide)).trans (by decide)
  · exact (h.2.2.2.2 (by decide)).trans (by decide)

/-! ### Connection Manager (`connectWithRetry` in `rabbitmq.service.ts`)

`connectWithRetry(retryCount = 0)` tries `connect()`; on failure it
logs `` `Failed to connect to RabbitMQ (Attempt ${retryCount + 1}/${maxRetries})` ``
and, while `retryCount < maxRetries`, waits `retryDelay` ms and recurses
with `retryCount + 1`; once `retryCount < maxRetries` fails it logs the
terminal message and returns.  Outcomes of the broker connection are
abstracted by an oracle `outcome : Nat → Bool` giving the success of the
attempt with a given `retryCount`.  The recursion is embedded
structurally on `retriesLeft = maxRetries - retryCount` (so
`retriesLeft > 0` exactly when `retryCount < maxRetries`). -/

/-- `maxRetries = 5` in `RabbitMQService`. -/
def maxRetries : Nat := 5

/-- `retryDelay = 5000` (ms) in `RabbitMQService`. -/
def retryDelay : Nat := 5000

/-- Trace of one `connectWithRetry` call: number of `connect()`
attempts, the per-failure log labels, and the delays (ms) slept between
consecutive attempts. -/
structure ConnectTrace where
  attempts : Nat
  failureLabels : List String
  delays : List Nat
  deriving DecidableEq, Repr

/-- The retry loop, structurally on the retries left. -/
def connectWithRetryAux (outcome : Nat → Bool) (retryCount : Nat) :
    Nat → ConnectTrace
  | 0 =>
      if outcome retryCount then
        { attempts := 1, failureLabels := [], delays := [] }
      else
        { attempts := 1
          failureLabels :=
            ["Attempt " ++ toString (retryCount + 1) ++ "/" ++
              toString maxRetries]
          delays := [] }
  | retriesLeft + 1 =>
      if outcome retryCount then
        { attempts := 1, failureLabels := [], delays := [] }
      else
        let rest := connectWithRetryAux outcome (retryCount + 1) retriesLeft
        { attempts := rest.attempts + 1
          failureLabels :=
            ("Attempt " ++ toString (retryCount + 1) ++ "/" ++
              toString maxRetries) :: rest.failureLabels
          delays := retryDelay :: rest.delays }

/-- `connectWithRetry()` as called externally (`retryCount = 0`). -/
def connectWithRetry (outcome : Nat → Bool) : ConnectTrace :=
  connectWithRetryAux outcome 0 maxRetries

/-- C8 evidence: when every connection attempt fails, `connectWithRetry`
makes **6** attempts, not 5 — one initial attempt plus `maxRetries`
retries, each preceded by the fixed 5000 ms delay — and its last
failure log reads `Attempt 6/5`, contradicting the code's own
`Attempt ${retryCount+1}/${maxRetries}` labelling.  After the sixth
failure the loop returns and nothing re-triggers it. -/
theorem connectWithRetry_six_attempts :
    (connectWithRetry (fun _ => false)).attempts = 6 ∧
    ¬ (connectWithRetry (fun _ => false)).attempts ≤ 5 ∧
    (connectWithRetry (fun _ => false)).delays =
      [5000, 5000, 5000, 5000, 5000] ∧
    (connectWithRetry (fun _ => false)).failureLabels =
      ["Attempt 1/5", "Attempt 2/5", "Attempt 3/5", "Attempt 4/5",
       "Attempt 5/5", "Attempt 6/5"] := by
  decide

/-! ### Event Publisher (`publish` in `rabbitmq.service.ts`)

`publish(exchange, routingKey, message)`:
* if `this.channel` is unset, run `connectWithRetry()` and throw
  `'RabbitMQ channel is not initialized'` when the channel is still
  unset;
* then `try { this.channel.publish(...) }`;
* on a throw, `handleReconnect()` (cleanup + `connectWithRetry`, its
  own errors swallowed) and then publish the same message again, any
  error of that second publish propagating to the caller.  The
  `if (this.channel)` guard before the retry always holds here: the
  `channel` field is assigned in `connect()` and never cleared —
  `cleanup()` closes the channel object without unsetting the field —
  so once the `try` block was entered the field stays truthy (a new
  channel after a successful reconnect, the stale closed one after a
  failed reconnect, on which the retry then throws).

Broker behaviour is abstracted by a `TransportEnv` record of outcome
flags. -/

/-- Outcomes of the broker interactions during one `publish` call. -/
structure TransportEnv where
  /-- `this.channel` is set when `publish` is entered. -/
  channelAtStart : Bool
  /-- the `connectWithRetry` run for an initially missing channel leaves
  a channel set -/
  initialReconnectRestores : Bool
  /-- the first `channel.publish` throws -/
  firstPublishThrows : Bool
  /-- the second `channel.publish` (the retry after `handleReconnect`)
  throws — e.g. because the reconnect failed and the field still holds
  the stale closed channel -/
  retryPublishThrows : Bool
  deriving DecidableEq, Repr

/-- Trace of one `publish` call: the payloads passed to
`channel.publish` (in order, including throwing calls), the number of
`handleReconnect()` runs from the `catch` block, and the error the call
raises, if any. -/
structure PublishTrace where
  attempts : List String
  catchReconnects : Nat
  error : Option String
  deriving DecidableEq, Repr

/-- The `try`/`catch` body of `publish`, entered with the `channel`
field set (truthy), which it remains, so the guarded retry always
runs after the `catch`-block reconnect. -/
def publishOnChannel (env : TransportEnv) (payload : String) :
    PublishTrace :=
  if env.firstPublishThrows then
    -- catch: handleReconnect(), then `if (this.channel)` — always
    -- truthy — publish the same payload again
    if env.retryPublishThrows then
      { attempts := [payload, payload], catchReconnects := 1,
        error := some "publish failed" }
    else
      { attempts := [payload, payload], catchReconnects := 1,
        error := none }
  else
    { attempts := [payload], catchReconnects := 0, error := none }

/-- `RabbitMQService.publish` for one message. -/
def publishModel (env : TransportEnv) (payload : String) : PublishTrace :=
  if env.channelAtStart then publishOnChannel env payload
  else if env.initialReconnectRestores then publishOnChannel env payload
  else
    { attempts := [], catchReconnects := 0,
      error := some "RabbitMQ channel is not initialized" }

/-- `InventoryService.publishStockUpdateEvent`'s error handling: log
success, or log the failure and re-throw the same error. -/
def publishStockUpdateEvent (env : TransportEnv) (payload : String) :
    PublishTrace × List String :=
  let trace := publishModel env payload
  match trace.error with
  | none => (trace, ["Published stock update event"])
  | some e =>
      (trace, ["Failed to publish stock update event: " ++ e])

/-- C6: whenever the underlying `channel.publish` throws, `publish`
performs exactly one reconnect and exactly one retry of the same
payload; if the retry also fails, that error propagates to the caller;
and the orchestrator (`publishStockUpdateEvent`) never swallows an
error `publish` raises — it logs the failure and re-throws the same
error. -/
theorem publish_retry_policy (env : TransportEnv) (payload : String)
    (hchan : env.channelAtStart = true ∨
      env.initialReconnectRestores = true)
    (hthrow : env.firstPublishThrows = true) :
    (publishModel env payload).catchReconnects = 1 ∧
    (publishModel env payload).attempts = [payload, payload] ∧
    (env.retryPublishThrows = true →
      (publishModel env payload).error = some "publish failed") ∧
    (∀ e, (publishModel env payload).error = some e →
      (publishStockUpdateEvent env payload).1.error = some e ∧
      ("Failed to publish stock update event: " ++ e) ∈
        (publishStockUpdateEvent env payload).2) := by
  obtain ⟨ca, ir, fp, rp⟩ := env
  simp only at hchan hthrow
  subst hthrow
  have hgo :
      publishModel (TransportEnv.mk ca ir true rp) payload =
        publishOnChannel (TransportEnv.mk ca ir true rp) payload := by
    rcases hchan with h | h
    · subst h
      simp [publishModel]
    · subst h
      cases ca <;> simp [publishModel]
  refine ⟨?_, ?_, ?_, ?_⟩
  · rw [hgo]
    cases rp <;> simp [publishOnChannel]
  · rw [hgo]
    cases rp <;> simp [publishOnChannel]
  · intro hrp
    simp only at hrp
    subst hrp
    rw [hgo]
    simp [publishOnChannel]
  · intro e herr
    cases rp <;>
      simp_all [publishModel, publishOnChannel, publishStockUpdateEvent,
        hgo]

/-- Witness for C6: channel present, first publish throws, retry throws
— one catch-block reconnect, two attempts of the same payload, the
error propagates, and the orchestrator logs and re-throws it. -/
theorem publish_retry_policy_witness :
    (publishModel (TransportEnv.mk true true true true)
      "ev").catchReconnects = 1 ∧
    (publishModel (TransportEnv.mk true true true true) "ev").attempts =
      ["ev", "ev"] ∧
    (publishModel (TransportEnv.mk true true true true) "ev").error =
      some "publish failed" ∧
    (publishStockUpdateEvent (TransportEnv.mk true true true true)
      "ev").1.error = some "publish failed" ∧
    ("Failed to publish stock update event: publish failed") ∈
      (publishStockUpdateEvent (TransportEnv.mk true true true true)
        "ev").2 := by
  have h := publish_retry_policy (TransportEnv.mk true true true true)
    "ev" (Or.inl (by decide)) (by decide)
  have hrp := h.2.2.1 (by decide)
  have horch := h.2.2.2 "publish failed" hrp
  exact ⟨h.1, h.2.1, hrp, horch.1, horch.2⟩

end Inventory
